import Mathlib

/-!
Verification of the mood-trend analytics engine (app/routers/analytics.py).

Numbers are modelled as rationals (Python floats used only for finite
arithmetic); JSON dictionaries as association lists; fallible Python
expressions as `Except String`; a value on which `float(...)` raises is
the constructor `PolVal.nonnum`.
-/

set_option maxHeartbeats 1000000

/-- A value stored under the "polarity" key of `emotion_scores`:
either one that `float(...)` converts (modelled by its numeric value) or
one on which `float(...)` raises.  A stored Python `None` behaves, in both
extraction paths, exactly like an absent key and is modelled as absence. -/
inductive PolVal
  | num (q : ℚ)
  | nonnum
deriving DecidableEq

/-- The `emotion_scores` column of a `MessageAnalysis` row: SQL NULL /
Python `None`, a truthy non-dict JSON value, or a dict given as an
association list. -/
inductive EmoScores
  | null
  | nondict
  | dict (entries : List (String × PolVal))
deriving DecidableEq

/-- Python truthiness of the `emotion_scores` value (`None` and the empty
dict are falsy). -/
def EmoScores.truthy : EmoScores → Bool
  | .null => false
  | .nondict => true
  | .dict es => !es.isEmpty

/-- `ev.get(k)` on the association-list model of a dict. -/
def dictGet (es : List (String × PolVal)) (k : String) : Option PolVal :=
  (es.find? (fun e => e.1 = k)).map (fun e => e.2)

/-- `float(p)`: succeeds on convertible values, fails on the rest. -/
def pyFloat : PolVal → Option ℚ
  | .num q => some q
  | .nonnum => none

/-- A `MessageAnalysis` row (the fields the analytics code reads). -/
structure MessageAnalysis where
  emotion_scores : EmoScores
  sentiment_label : Option String
deriving DecidableEq

/-- Does `pat` occur as a prefix of `l`? -/
def listStartsWith : List Char → List Char → Bool
  | _, [] => true
  | [], _ :: _ => false
  | a :: as, b :: bs => a == b && listStartsWith as bs

/-- Does `pat` occur as a contiguous sublist of `l`? -/
def listHasSub (l pat : List Char) : Bool :=
  match l with
  | [] => pat.isEmpty
  | _ :: rest => listStartsWith l pat || listHasSub rest pat

/-- Python's `s.lower()`, as a character list (the labels involved are
ASCII). -/
def pyLower (s : String) : List Char :=
  s.data.map Char.toLower

/-- Python's `sub in s` on a lowered string. -/
def strContains (s : List Char) (sub : String) : Bool :=
  listHasSub s sub.data

/-- `_safe_extract_polarity` (analytics.py lines 28-51): dict polarity
first, then the sentiment-label fallback. -/
def _safe_extract_polarity (analysis : Option MessageAnalysis) : ℚ :=
  match analysis with
  | none => 0
  | some a =>
    let viaDict : Option ℚ :=
      match a.emotion_scores with
      | .dict es =>
        match dictGet es "polarity" with
        | none => none          -- p is None: ValueError raised and caught
        | some v => pyFloat v   -- float(p); a failure is caught by the except
      | _ => none
    match viaDict with
    | some q => q
    | none =>
      let lbl := pyLower (a.sentiment_label.getD "")
      if strContains lbl "positive" then 4/5
      else if strContains lbl "negative" then -(4/5)
      else 0

/-- The inline polarity extraction of `user_mood_trend` (analytics.py
lines 182-201): the label fallback runs only when no value was obtained
from the dict; `float(p)` is applied afterwards with `except: p = 0.0`. -/
def trend_extract_polarity (analysis : Option MessageAnalysis) : ℚ :=
  let p0 : Option PolVal :=
    match analysis with
    | some a =>
      if a.emotion_scores.truthy then
        match a.emotion_scores with
        | .dict es => dictGet es "polarity"
        | _ => none
      else none
    | none => none
  match p0 with
  | some v =>
    match pyFloat v with      -- try: p = float(p) except: p = 0.0
    | some q => q
    | none => 0
  | none =>
    let lbl := match analysis with
      | some a => pyLower (a.sentiment_label.getD "")
      | none => []
    if strContains lbl "positive" then 4/5
    else if strContains lbl "negative" then -(4/5)
    else 0

/-- The label→polarity fallback of spec §4.1 (shared wording of both
extraction sites). -/
def label_fallback (a : MessageAnalysis) : ℚ :=
  let lbl := pyLower (a.sentiment_label.getD "")
  if strContains lbl "positive" then 4/5
  else if strContains lbl "negative" then -(4/5)
  else 0

/-- Modelled from the spec (§4.1 Polarity Extractor, for comparison with
the source): absent record → 0; present numeric polarity → unchanged;
otherwise (including a non-numeric polarity value) the label fallback. -/
def extract_spec (analysis : Option MessageAnalysis) : ℚ :=
  match analysis with
  | none => 0
  | some a =>
    match a.emotion_scores with
    | .dict es =>
      match dictGet es "polarity" with
      | some (.num q) => q
      | _ => label_fallback a
    | _ => label_fallback a

/-- What the mood-trend path actually computes: like `extract_spec`,
except that a present but non-numeric polarity value yields 0 directly,
without consulting the label. -/
def trend_extract_spec (analysis : Option MessageAnalysis) : ℚ :=
  match analysis with
  | none => 0
  | some a =>
    match a.emotion_scores with
    | .dict es =>
      match dictGet es "polarity" with
      | some (.num q) => q
      | some .nonnum => 0
      | none => label_fallback a
    | _ => label_fallback a

/-- A record whose stored polarity is non-numeric while its label contains
"positive". -/
def cex_analysis : MessageAnalysis :=
  { emotion_scores := .dict [("polarity", .nonnum)], sentiment_label := some "positive" }

/-- `_moving_average` (analytics.py lines 53-63): trailing moving average
with the window clamped to a minimum of 1; `values[start:i+1]` is
`(values.take (i+1)).drop start`. -/
def _moving_average (values : List ℚ) (window : Int) : List ℚ :=
  if values.isEmpty then []
  else
    let w := max 1 window
    (List.range values.length).map (fun (i : ℕ) =>
      let start := (max 0 ((i : Int) - w + 1)).toNat
      let window_vals := (values.take (i + 1)).drop start
      window_vals.sum / window_vals.length)

/-- `_linear_regression_slope` (analytics.py lines 65-75).  `n` is
`len(xs)`; every call site passes `ys` of the same length, so `xs[i]` and
`ys[i]` are modelled by `getD` with an irrelevant default. -/
def _linear_regression_slope (xs ys : List ℚ) : Option ℚ :=
  let n := xs.length
  if n < 2 then none
  else
    let mean_x := xs.sum / (n : ℚ)
    let mean_y := ys.sum / (n : ℚ)
    let num := ((List.range n).map
      (fun i => (xs.getD i 0 - mean_x) * (ys.getD i 0 - mean_y))).sum
    let den := ((List.range n).map (fun i => (xs.getD i 0 - mean_x) ^ 2)).sum
    if den = 0 then none else some (num / den)

/-- The slope as `user_mood_trend` computes it (analytics.py lines
206-207): `xs = list(range(len(smoothed)))`. -/
def slope_of (smoothed : List ℚ) : Option ℚ :=
  _linear_regression_slope ((List.range smoothed.length).map ((fun i => (i : ℚ)) : ℕ → ℚ)) smoothed

/-- Modelled from the spec (§4.4, for comparison with the source): the
ordinary least-squares slope of value against 0-based index. -/
def ols_slope_spec (ys : List ℚ) : ℚ :=
  let n := ys.length
  let xbar : ℚ := ((List.range n).map ((fun i => (i : ℚ)) : ℕ → ℚ)).sum / (n : ℚ)
  let ybar : ℚ := ys.sum / (n : ℚ)
  let num := ((List.range n).map (fun (i : ℕ) => ((i : ℚ) - xbar) * (ys.getD i 0 - ybar))).sum
  let den := ((List.range n).map (fun (i : ℕ) => ((i : ℚ) - xbar) ^ 2)).sum
  num / den

/-- `_label_trend` (analytics.py lines 77-86).  The `thresholds` dict
parameter defaults to `slope_small = 0.01`, `delta_big = 0.25` when the
caller passes `None`. -/
def _label_trend (slope : Option ℚ) (delta : ℚ) (thresholds : Option (ℚ × ℚ)) : String :=
  let t := thresholds.getD (1/100, 1/4)
  match slope with
  | none => "stable"
  | some s =>
    if s > t.1 ∨ delta > t.2 then "increasing"
    else if s < -t.1 ∨ delta < -t.2 then "decreasing"
    else "stable"

/-- `_polarity_to_word` (analytics.py lines 88-104).  `none` stands for
Python `None` and for any score on which `float(...)` raises; both map to
"Unknown" in the source. -/
def _polarity_to_word (score : Option ℚ) : String :=
  match score with
  | none => "Unknown"
  | some s =>
    if s ≤ -(3/5) then "Strongly Negative"
    else if s ≤ -(1/5) then "Negative"
    else if s < 1/5 then "Neutral"
    else if s < 3/5 then "Positive"
    else "Strongly Positive"

/-- Modelled from the spec (§4.7): the unweighted mean of the polarities
the Polarity Extractor yields on the user's analyzed messages. -/
def aggMean (rows : List MessageAnalysis) : ℚ :=
  (rows.map (fun r => _safe_extract_polarity (some r))).sum / (rows.length : ℚ)

/-- `conversation_sentiment` (analytics.py lines 107-144) after the user
lookup: `rows` are the user's MessageAnalysis rows.  `_safe_extract_polarity`
is total, so the `try/except: continue` around it keeps every row. -/
def conversation_sentiment (user_id : Int) (rows : List MessageAnalysis) :
    Int × Option ℚ × String × ℕ :=
  if rows.isEmpty then (user_id, none, "Unknown", 0)
  else
    let polarities := rows.map (fun r => _safe_extract_polarity (some r))
    if polarities.isEmpty then (user_id, none, "Unknown", 0)
    else
      let agg := polarities.sum / (polarities.length : ℚ)
      (user_id, some agg, _polarity_to_word (some agg), polarities.length)

/-- A shift event as built by `user_mood_trend` (analytics.py lines
225-239): index, metadata of the current index, current smoothed value,
and the reason string. -/
structure ShiftEvent where
  index : ℕ
  message_id : Int
  timestamp : Option String
  polarity : ℚ
  reason : String
deriving DecidableEq

/-- One iteration of the shift-detection loop (analytics.py lines
220-239): append a crossed_zero event, then a large_jump event, when their
conditions hold at index `i`. -/
def shift_step (smoothed : List ℚ) (meta : List (Int × Option String))
    (acc : List ShiftEvent) (i : ℕ) : List ShiftEvent :=
  let prev := smoothed.getD (i - 1) 0
  let cur := smoothed.getD i 0
  let mid := (meta.getD i (0, none)).1
  let ts := (meta.getD i (0, none)).2
  let acc1 :=
    if (prev ≤ 0 ∧ 0 < cur) ∨ (0 ≤ prev ∧ cur < 0) then
      acc ++ [⟨i, mid, ts, cur, "crossed_zero"⟩]
    else acc
  if 1/2 ≤ |cur - prev| then acc1 ++ [⟨i, mid, ts, cur, "large_jump"⟩]
  else acc1

/-- The shift-detection loop of `user_mood_trend`: `for i in
range(1, len(smoothed))` accumulating into an initially empty list. -/
def detect_shift_points (smoothed : List ℚ) (meta : List (Int × Option String)) :
    List ShiftEvent :=
  (List.range' 1 (smoothed.length - 1)).foldl (shift_step smoothed meta) []

/-- Modelled from the spec (§4.6, for comparison with the source): the
events a single index contributes, crossed_zero before large_jump. -/
def spec_events_at (smoothed : List ℚ) (meta : List (Int × Option String))
    (i : ℕ) : List ShiftEvent :=
  let prev := smoothed.getD (i - 1) 0
  let cur := smoothed.getD i 0
  let mid := (meta.getD i (0, none)).1
  let ts := (meta.getD i (0, none)).2
  (if (prev ≤ 0 ∧ 0 < cur) ∨ (0 ≤ prev ∧ cur < 0) then
    [⟨i, mid, ts, cur, "crossed_zero"⟩] else []) ++
  (if 1/2 ≤ |cur - prev| then [⟨i, mid, ts, cur, "large_jump"⟩] else [])

/-- Modelled from the spec (§4.6): every index from 1 to the end
contributes its events in order. -/
def spec_shift_points (smoothed : List ℚ) (meta : List (Int × Option String)) :
    List ShiftEvent :=
  (List.range' 1 (smoothed.length - 1)).flatMap (spec_events_at smoothed meta)

/-- `start_slice` (analytics.py line 210): `smoothed[:w]` when the series
is long enough, otherwise `smoothed[:max(1, len(smoothed))]`. -/
def start_slice_code (smoothed : List ℚ) (window : Int) : List ℚ :=
  let w := max 1 window
  if w ≤ (smoothed.length : Int) then smoothed.take w.toNat
  else smoothed.take (max 1 smoothed.length)

/-- `start_mean` (analytics.py line 212). -/
def start_mean_code (smoothed : List ℚ) (window : Int) : ℚ :=
  let s := start_slice_code smoothed window
  if s.isEmpty then 0 else s.sum / (s.length : ℚ)

/-- The value of the Python expression on analytics.py line 211: in the
shortfall branch the source reads `smoothed[- max(1, len(smoothed))]`
WITHOUT a colon, so it is a single float (an IndexError on an empty
list), not a slice. -/
inductive PySlice
  | list (xs : List ℚ)
  | val (x : ℚ)
deriving DecidableEq

/-- `end_slice` (analytics.py line 211): `smoothed[-w:]` when the series
is long enough, otherwise the single element `smoothed[-max(1, len)]`. -/
def end_slice_code (smoothed : List ℚ) (window : Int) : Except String PySlice :=
  let w := max 1 window
  if w ≤ (smoothed.length : Int) then
    .ok (.list (smoothed.drop (smoothed.length - w.toNat)))
  else
    let j : Int := (smoothed.length : Int) - max 1 (smoothed.length : Int)
    if 0 ≤ j ∧ j < (smoothed.length : Int) then .ok (.val (smoothed.getD j.toNat 0))
    else .error "IndexError"

/-- `end_mean` (analytics.py line 213): `float(sum(end_slice) /
len(end_slice)) if end_slice else 0.0`.  When `end_slice` is a single
float, `sum` raises TypeError unless the float is falsy (0.0). -/
def end_mean_code (smoothed : List ℚ) (window : Int) : Except String ℚ :=
  match end_slice_code smoothed window with
  | .error e => .error e
  | .ok (.list xs) => .ok (if xs.isEmpty then 0 else xs.sum / (xs.length : ℚ))
  | .ok (.val x) => if x = 0 then .ok 0 else .error "TypeError"

/-- Modelled from the spec (§4.4, for comparison with the source): the
mean of the first `w` smoothed values, or of all of them when fewer than
`w` exist; 0 on the empty series. -/
def start_mean_spec (smoothed : List ℚ) (window : Int) : ℚ :=
  let w := (max 1 window).toNat
  let s := smoothed.take w
  if s.isEmpty then 0 else s.sum / (s.length : ℚ)

/-- Modelled from the spec (§4.4, for comparison with the source): the
mean of the last `w` smoothed values, or of all of them when fewer than
`w` exist; 0 on the empty series. -/
def end_mean_spec (smoothed : List ℚ) (window : Int) : ℚ :=
  let w := (max 1 window).toNat
  let s := smoothed.drop (smoothed.length - w)
  if s.isEmpty then 0 else s.sum / (s.length : ℚ)

/-- Sign and two decimals, the shape of Python's `f"{x:+.2f}"` (rounding
modelled on the exact rational). -/
def fmt2 (q : ℚ) : String :=
  let cents : Int := round (q * 100)
  let sign := if cents < 0 then "-" else "+"
  let a := cents.natAbs
  (sign ++ toString (a / 100)) ++ "." ++
    (if a % 100 < 10 then "0" else "") ++ toString (a % 100)

/-- The deterministic templated summary (analytics.py lines 255-257). -/
def simple_summary (trend_label : String) (start_mean end_mean delta : ℚ)
    (shift_points : List ShiftEvent) : String :=
  let base := (("Conversation mood is " ++ trend_label ++ ". Start mean=" ++
    fmt2 start_mean) ++ ", end mean=" ++ fmt2 end_mean) ++ ", delta=" ++
    fmt2 delta ++ "."
  if shift_points.isEmpty then base
  else (base ++ " Detected " ++ toString shift_points.length ++
    " notable shift(s) (examples: ") ++
    String.intercalate ", " ((shift_points.take 3).map (fun sp => sp.reason)) ++ ")."

/-- Outcome of the optional LLM summary step (analytics.py lines
262-276): the import may have failed, the call may raise, or it may
return a non-string or a string. -/
inductive LLMOutcome
  | unavailable
  | raisesExc
  | nonString
  | returnsStr (s : String)
deriving DecidableEq

/-- The success test of the optional step (analytics.py line 272):
`isinstance(llm_resp, str) and llm_resp.strip()` — the stripped string
when it is non-empty. -/
def llm_success : LLMOutcome → Option String
  | .returnsStr s => let t := s.trim; if t = "" then none else some t
  | _ => none

/-- A message row as `user_mood_trend` consumes it: id, the ISO timestamp
string (or None), and the result of the per-message analysis lookup. -/
structure MsgRow where
  id : Int
  created_at : Option String
  analysis : Option MessageAnalysis
deriving DecidableEq

/-- The JSON object `user_mood_trend` returns.  `summary_label = none`
models the KEY being absent from the returned dict (the zero-messages
early return does not set it); the normal path always stores a string. -/
structure TrendOk where
  user_id : Int
  count : ℕ
  polarities : List ℚ
  smoothed : List ℚ
  slope : Option ℚ
  start_mean : Option ℚ
  end_mean : Option ℚ
  delta : Option ℚ
  trend : String
  shift_points : List ShiftEvent
  summary : String
  summary_label : Option String
deriving DecidableEq

/-- The numeric fields of a trend result (everything except the summary
text; the summary label is derived from `end_mean` alone and listed with
the summary-independent data). -/
def numericPart (r : TrendOk) :
    Int × ℕ × List ℚ × List ℚ × Option ℚ × Option ℚ × Option ℚ × Option ℚ ×
      String × List ShiftEvent :=
  (r.user_id, r.count, r.polarities, r.smoothed, r.slope, r.start_mean,
    r.end_mean, r.delta, r.trend, r.shift_points)

/-- The numeric part of the non-empty path of `user_mood_trend`
(analytics.py lines 177-252): everything the endpoint computes before
the summary text is attached. -/
structure TrendData where
  polarities : List ℚ
  smoothed : List ℚ
  slope : Option ℚ
  start_mean : ℚ
  end_mean : ℚ
  delta : ℚ
  trend : String
  shift_points : List ShiftEvent
deriving DecidableEq

/-- Analytics.py lines 177-252 on a non-empty fetch: polarity series,
smoothing, slope, start/end means (where the end mean can raise, see
`end_mean_code`), trend label and shift points. -/
def mood_numeric (fetched : List MsgRow) (window : Int) : Except String TrendData :=
  let msgs := fetched.reverse
  let polarities := msgs.map (fun m => trend_extract_polarity m.analysis)
  let meta := msgs.map (fun m => (m.id, m.created_at))
  let smoothed := _moving_average polarities window
  let xs := (List.range smoothed.length).map ((fun i => (i : ℚ)) : ℕ → ℚ)
  let slope := _linear_regression_slope xs smoothed
  let start_mean := start_mean_code smoothed window
  match end_mean_code smoothed window with
  | .error e => .error e
  | .ok end_mean =>
    let delta := end_mean - start_mean
    let trend_label := _label_trend slope delta none
    let shift_points := detect_shift_points smoothed meta
    .ok { polarities := polarities, smoothed := smoothed, slope := slope,
          start_mean := start_mean, end_mean := end_mean, delta := delta,
          trend := trend_label, shift_points := shift_points }

/-- `user_mood_trend` (analytics.py lines 146-281) after the user lookup:
`fetched` is the newest-first query result (at most `last_n` rows),
`outcome` the behaviour of the optional LLM step.  An uncaught Python
exception is an `.error`.  As in the source, the numeric result is
computed first; the deterministic summary is attached and overwritten
only when the optional LLM step succeeds. -/
def user_mood_trend (user_id : Int) (fetched : List MsgRow) (window : Int)
    (outcome : LLMOutcome) : Except String TrendOk :=
  if fetched.isEmpty then
    .ok { user_id := user_id, count := 0, polarities := [], smoothed := [],
          slope := none, start_mean := none, end_mean := none, delta := none,
          trend := "unknown", shift_points := [], summary := "",
          summary_label := none }
  else
    match mood_numeric fetched window with
    | .error e => .error e
    | .ok d =>
      let simple := simple_summary d.trend d.start_mean d.end_mean d.delta d.shift_points
      let summary_text := (llm_success outcome).getD simple
      .ok { user_id := user_id, count := d.polarities.length,
            polarities := d.polarities, smoothed := d.smoothed, slope := d.slope,
            start_mean := some d.start_mean, end_mean := some d.end_mean,
            delta := some d.delta, trend := d.trend,
            shift_points := d.shift_points, summary := summary_text,
            summary_label := some (_polarity_to_word (some d.end_mean)) }

/-- C3: with the default thresholds, the trend classifier returns "stable"
when the slope is `None` regardless of delta; otherwise "increasing" when
slope > 0.01 or delta > 0.25 (checked first); otherwise "decreasing" when
slope < -0.01 or delta < -0.25; otherwise "stable". -/
theorem label_trend_matches_spec (slope : Option ℚ) (delta : ℚ) :
    _label_trend slope delta none =
      match slope with
      | none => "stable"
      | some s =>
        if s > 1/100 ∨ delta > 1/4 then "increasing"
        else if s < -(1/100) ∨ delta < -(1/4) then "decreasing"
        else "stable" := by
  cases slope <;> rfl

/-- C5, counterexample: on a record whose stored polarity value is
non-numeric and whose label contains "positive", the claim demands the
label-path value 0.8 at both extraction sites, but the mood-trend path
(analytics.py lines 182-201) returns 0.0 instead of consulting the
label, while `_safe_extract_polarity` returns 0.8. -/
theorem trend_extract_label_fallback_cex :
    trend_extract_polarity (some cex_analysis) = 0 ∧
    _safe_extract_polarity (some cex_analysis) = 4/5 ∧ (0 : ℚ) ≠ 4/5 := by
  refine ⟨?_, ?_, by norm_num⟩
  · norm_num [trend_extract_polarity, cex_analysis, dictGet, pyFloat, EmoScores.truthy]
  · norm_num [_safe_extract_polarity, cex_analysis, dictGet, pyFloat]
    decide

/-- C5, amended: `_safe_extract_polarity` behaves exactly as the claim
states (absent record → 0.0; numeric polarity → unchanged; otherwise the
case-insensitive label fallback 0.8 / -0.8 / 0.0, with a non-numeric
polarity treated as absent), and it never raises; the mood-trend path's
inline extraction instead returns 0.0 on a present but non-numeric
polarity value, taking the label path only when no polarity value was
obtained from `emotion_scores`. -/
theorem extract_polarity_amended (analysis : Option MessageAnalysis) :
    _safe_extract_polarity analysis = extract_spec analysis ∧
    trend_extract_polarity analysis = trend_extract_spec analysis := by
  constructor
  · cases analysis with
    | none => rfl
    | some a =>
      rcases a with ⟨es, lbl⟩
      cases es with
      | null => rfl
      | nondict => rfl
      | dict entries =>
        simp only [_safe_extract_polarity, extract_spec, label_fallback]
        cases hp : dictGet entries "polarity" with
        | none => rfl
        | some v => cases v <;> rfl
  · cases analysis with
    | none => rfl
    | some a =>
      rcases a with ⟨es, lbl⟩
      cases es with
      | null => rfl
      | nondict => rfl
      | dict entries =>
        cases entries with
        | nil => rfl
        | cons e rest =>
          simp only [trend_extract_polarity, trend_extract_spec, label_fallback,
            EmoScores.truthy, List.isEmpty_cons, Bool.not_false]
          cases hp : dictGet (e :: rest) "polarity" with
          | none => simp [hp]
          | some v => cases v <;> simp [hp, pyFloat]

/-- C1: the end-mean computation of analytics.py line 211 indexes
(`smoothed[- max(1, len(smoothed))]`, no colon) instead of slicing when
the series is shorter than the window, so `sum(end_slice)` raises
TypeError on a nonzero first element ([0.5], window 3) and silently
yields 0.0 instead of the mean on a zero first element ([0, 0.25],
window 3); the spec's shortfall rule (mean of all smoothed values) gives
0.5 and 0.125 there.  The start mean follows the spec on such inputs,
and reaching line 211 with an empty series would raise IndexError. -/
theorem end_mean_missing_colon_bug :
    end_mean_code [(1:ℚ)/2] 3 = .error "TypeError" ∧
    end_mean_spec [(1:ℚ)/2] 3 = 1/2 ∧
    end_mean_code [(0:ℚ), 1/4] 3 = .ok 0 ∧
    end_mean_spec [(0:ℚ), 1/4] 3 = 1/8 ∧
    start_mean_code [(1:ℚ)/2] 3 = start_mean_spec [(1:ℚ)/2] 3 ∧
    end_slice_code ([] : List ℚ) 3 = .error "IndexError" := by
  refine ⟨?_, ?_, ?_, ?_, ?_, ?_⟩
  · norm_num [end_mean_code, end_slice_code]
  · norm_num [end_mean_spec]
  · norm_num [end_mean_code, end_slice_code]
  · norm_num [end_mean_spec]
  · norm_num [start_mean_code, start_slice_code, start_mean_spec]
    rw [show Int.toNat 3 = 3 from rfl]
    norm_num
  · norm_num [end_slice_code]

/-- C2: the mood-trend computation is not exception-free and does not
always return the full §6 shape: a user with a single analyzed message of
polarity 0.5 under the default window 3 makes line 213 raise TypeError
(via the missing colon on line 211), and the zero-messages early return
(lines 163-175) omits the `summary_label` key. -/
theorem mood_trend_raises_bug :
    user_mood_trend 1 [⟨1, none, some ⟨.dict [("polarity", .num (1/2))], none⟩⟩] 3
        .unavailable = .error "TypeError" ∧
    (user_mood_trend 1 [] 3 .unavailable).map (fun r => r.summary_label) = .ok none := by
  constructor
  · norm_num [user_mood_trend, mood_numeric, trend_extract_polarity, dictGet, pyFloat,
      EmoScores.truthy, _moving_average, List.range_succ, end_mean_code, end_slice_code]
  · norm_num [user_mood_trend, Except.map]

/-- One loop iteration appends exactly the events of its index, in order. -/
lemma shift_step_eq_append (smoothed : List ℚ) (meta : List (Int × Option String))
    (acc : List ShiftEvent) (i : ℕ) :
    shift_step smoothed meta acc i = acc ++ spec_events_at smoothed meta i := by
  dsimp only [shift_step, spec_events_at]
  split_ifs <;> simp

/-- Folding the loop body over any index list is flat-mapping the
per-index events. -/
lemma foldl_shift_step (smoothed : List ℚ) (meta : List (Int × Option String))
    (l : List ℕ) (acc : List ShiftEvent) :
    l.foldl (shift_step smoothed meta) acc =
      acc ++ l.flatMap (spec_events_at smoothed meta) := by
  induction l generalizing acc with
  | nil => simp
  | cons j t ih => simp [List.foldl_cons, shift_step_eq_append, ih]

/-- C4: the shift detector emits, for each index i from 1 to the end, a
crossed_zero event exactly when the sign-crossing condition holds and a
large_jump event exactly when |cur - prev| ≥ 0.5, crossed_zero first at a
shared index, each event carrying the metadata of the current index; no
events when the series has fewer than 2 elements; on [0.1, -0.1, 0.5]
index 1 crosses zero and index 2 emits both events. -/
theorem shift_points_match_spec (smoothed : List ℚ) (meta : List (Int × Option String)) :
    detect_shift_points smoothed meta = spec_shift_points smoothed meta ∧
    (smoothed.length < 2 → detect_shift_points smoothed meta = []) ∧
    detect_shift_points [(1:ℚ)/10, -(1/10), 1/2] [(1, none), (2, none), (3, none)] =
      [⟨1, 2, none, -(1/10), "crossed_zero"⟩, ⟨2, 3, none, 1/2, "crossed_zero"⟩,
       ⟨2, 3, none, 1/2, "large_jump"⟩] := by
  refine ⟨?_, ?_, ?_⟩
  · simpa [detect_shift_points, spec_shift_points] using
      foldl_shift_step smoothed meta (List.range' 1 (smoothed.length - 1)) []
  · intro h
    have h0 : smoothed.length - 1 = 0 := by omega
    simp [detect_shift_points, h0]
  · norm_num [detect_shift_points, shift_step, List.range', abs_of_nonneg, abs_of_nonpos]

/-- C4, witness: the short-series conjunct at a concrete input. -/
theorem shift_points_match_spec_witness :
    ([(1:ℚ)/10].length < 2) ∧ detect_shift_points [(1:ℚ)/10] [(5, none)] = [] :=
  ⟨by norm_num, (shift_points_match_spec [(1:ℚ)/10] [(5, none)]).2.1 (by norm_num)⟩

/-- `getD` of a map over `List.range` evaluates the function. -/
lemma getD_map_range (f : ℕ → ℚ) (n i : ℕ) (h : i < n) :
    ((List.range n).map f).getD i 0 = f i := by
  rw [List.getD_eq_getElem _ _ (by simpa using h)]
  simp

/-- The one-element slice `l[i:i+1]`. -/
lemma take_succ_drop_self (l : List ℚ) (i : ℕ) (h : i < l.length) :
    (l.take (i + 1)).drop i = [l.getD i 0] := by
  induction l generalizing i with
  | nil => simp at h
  | cons a t ih =>
    cases i with
    | zero => simp
    | succ j =>
      simp only [List.take_succ_cons, List.drop_succ_cons, List.getD_cons_succ]
      exact ih j (by simpa using h)

/-- C6: the smoother preserves the length, element i is the mean of the
trailing slice `values[max(0, i-w+1) .. i]` with `w = max(1, window)`,
the empty series maps to the empty series, and window 1 is the
identity. -/
theorem moving_average_matches_spec (values : List ℚ) (window : Int) (i : ℕ)
    (hi : i < values.length) :
    (_moving_average values window).length = values.length ∧
    _moving_average [] window = [] ∧
    (_moving_average values window).getD i 0 =
      ((values.take (i + 1)).drop ((max 0 ((i : Int) - max 1 window + 1)).toNat)).sum /
        (((values.take (i + 1)).drop ((max 0 ((i : Int) - max 1 window + 1)).toNat)).length : ℚ) ∧
    _moving_average values 1 = values := by
  have hne : values.isEmpty = false := by
    cases values
    · simp at hi
    · simp
  refine ⟨?_, by simp [_moving_average], ?_, ?_⟩
  · simp [_moving_average, hne]
  · simp only [_moving_average, hne, Bool.false_eq_true, if_false]
    rw [getD_map_range _ _ _ hi]
  · apply List.ext_getElem
    · simp [_moving_average, hne]
    · intro j h1 h2
      simp only [_moving_average, hne, Bool.false_eq_true, if_false, List.getElem_map,
        List.getElem_range]
      have hj : j < values.length := by simpa using h2
      have hs : (max 0 ((j : Int) - max 1 1 + 1)).toNat = j := by omega
      rw [hs, take_succ_drop_self values j hj]
      simp [List.getD, List.getElem?_eq_getElem hj]

/-- C6, witness: element 1 of the window-2 smoothing of [1, 2, 3]. -/
theorem moving_average_matches_spec_witness :
    1 < ([1, 2, 3] : List ℚ).length ∧
    (_moving_average ([1, 2, 3] : List ℚ) 2).getD 1 0 =
      ((([1, 2, 3] : List ℚ).take 2).drop ((max 0 ((1 : Int) - max 1 2 + 1)).toNat)).sum /
        (((([1, 2, 3] : List ℚ).take 2).drop ((max 0 ((1 : Int) - max 1 2 + 1)).toNat)).length : ℚ) :=
  ⟨by norm_num, (moving_average_matches_spec [1, 2, 3] 2 1 (by norm_num)).2.2.1⟩

/-- A list bounded above termwise has sum at most bound times length. -/
lemma list_sum_le_mul (l : List ℚ) (hi : ℚ) (h : ∀ x ∈ l, x ≤ hi) :
    l.sum ≤ hi * l.length := by
  induction l with
  | nil => simp
  | cons a t ih =>
    simp only [List.sum_cons, List.length_cons]
    have ha := h a (by simp)
    have ht := ih (fun x hx => h x (by simp [hx]))
    push_cast
    nlinarith

/-- A list bounded below termwise has sum at least bound times length. -/
lemma mul_length_le_list_sum (l : List ℚ) (lo : ℚ) (h : ∀ x ∈ l, lo ≤ x) :
    lo * l.length ≤ l.sum := by
  induction l with
  | nil => simp
  | cons a t ih =>
    simp only [List.sum_cons, List.length_cons]
    have ha := h a (by simp)
    have ht := ih (fun x hx => h x (by simp [hx]))
    push_cast
    nlinarith

/-- C10: on a non-empty series every smoothed value stays inside any
bounds enclosing the raw series (so between its minimum and maximum; in
particular inside [-1, 1] when every raw polarity is). -/
theorem smoothed_within_bounds (values : List ℚ) (window : Int) (lo hi : ℚ)
    (hne : values ≠ []) (hb : ∀ y ∈ values, lo ≤ y ∧ y ≤ hi) :
    ∀ x ∈ _moving_average values window, lo ≤ x ∧ x ≤ hi := by
  intro x hx
  have hempty : values.isEmpty = false := by
    cases values
    · exact absurd rfl hne
    · simp
  simp only [_moving_average, hempty, Bool.false_eq_true, if_false] at hx
  rcases List.mem_map.mp hx with ⟨i, hir, rfl⟩
  have hi_lt : i < values.length := List.mem_range.mp hir
  generalize hst : (max 0 ((i : Int) - max 1 window + 1)).toNat = st
  have hstle : st ≤ i := by omega
  have hsub : ∀ y ∈ (values.take (i + 1)).drop st, lo ≤ y ∧ y ≤ hi := fun y hy =>
    hb y (List.take_subset _ _ (List.drop_subset _ _ hy))
  have hlen : 0 < ((values.take (i + 1)).drop st).length := by
    rw [List.length_drop, List.length_take]
    omega
  have hlenq : 0 < (((values.take (i + 1)).drop st).length : ℚ) := by
    exact_mod_cast hlen
  constructor
  · rw [le_div_iff₀ hlenq]
    calc lo * (((values.take (i + 1)).drop st).length : ℚ)
        ≤ ((values.take (i + 1)).drop st).sum :=
          mul_length_le_list_sum _ lo (fun y hy => (hsub y hy).1)
      _ = _ := rfl
  · rw [div_le_iff₀ hlenq]
    exact list_sum_le_mul _ hi (fun y hy => (hsub y hy).2)

/-- C10, witness: the window-3 smoothing of [1, -1/2] stays in [-1, 1]. -/
theorem smoothed_within_bounds_witness :
    (([1, -(1/2)] : List ℚ) ≠ [] ∧ ∀ y ∈ ([1, -(1/2)] : List ℚ), -1 ≤ y ∧ y ≤ 1) ∧
    ∀ x ∈ _moving_average [1, -(1/2)] 3, -1 ≤ x ∧ x ≤ 1 :=
  ⟨⟨by simp, by norm_num⟩,
    smoothed_within_bounds [1, -(1/2)] 3 (-1) 1 (by simp) (by norm_num)⟩

/-- A list of non-negative rationals summing to zero is termwise zero. -/
lemma sum_nonneg_all_zero (l : List ℚ) (h : ∀ x ∈ l, 0 ≤ x) (hs : l.sum = 0) :
    ∀ x ∈ l, x = 0 := by
  induction l with
  | nil => simp
  | cons a t ih =>
    have ha := h a (by simp)
    have hts : 0 ≤ t.sum := List.sum_nonneg (fun x hx => h x (by simp [hx]))
    have has : a + t.sum = 0 := by simpa using hs
    have ha0 : a = 0 := by linarith
    intro x hx
    rcases List.mem_cons.mp hx with rfl | hx'
    · exact ha0
    · exact ih (fun y hy => h y (by simp [hy])) (by linarith) x hx'

/-- With at least two distinct integer x-values, the x-variance term of
the regression is non-zero, whatever the mean subtracted. -/
lemma ols_den_ne_zero (n : ℕ) (hn : 2 ≤ n) (b : ℚ) :
    ((List.range n).map (fun (i : ℕ) => ((i : ℚ) - b) ^ 2)).sum ≠ 0 := by
  intro h0
  have hz := sum_nonneg_all_zero _
    (by
      intro x hx
      rcases List.mem_map.mp hx with ⟨i, _, rfl⟩
      positivity) h0
  have h0' : ((0 : ℚ) - b) ^ 2 = 0 := by
    have := hz _ (List.mem_map.mpr ⟨0, List.mem_range.mpr (by omega), rfl⟩)
    simpa using this
  have h1' : ((1 : ℚ) - b) ^ 2 = 0 := by
    have := hz _ (List.mem_map.mpr ⟨1, List.mem_range.mpr (by omega), rfl⟩)
    simpa using this
  have hb0 : b = 0 := by nlinarith
  have hb1 : b = 1 := by nlinarith
  norm_num [hb0] at hb1

/-- Sums of maps over a range agree when the functions agree below it. -/
lemma sum_map_range_congr (n : ℕ) (F G : ℕ → ℚ) (h : ∀ i < n, F i = G i) :
    ((List.range n).map F).sum = ((List.range n).map G).sum := by
  apply congrArg
  exact List.map_congr_left (fun i hi => h i (List.mem_range.mp hi))

/-- On series of length at least two the code's guarded slope is exactly
the ordinary least-squares slope against the index. -/
lemma slope_of_eq (smoothed : List ℚ) (h2 : 2 ≤ smoothed.length) :
    slope_of smoothed = some (ols_slope_spec smoothed) := by
  have hlen : ((List.range smoothed.length).map ((fun i => (i : ℚ)) : ℕ → ℚ)).length
      = smoothed.length := by simp
  have hgd : ∀ i < smoothed.length,
      ((List.range smoothed.length).map ((fun j => (j : ℚ)) : ℕ → ℚ)).getD i 0 = (i : ℚ) :=
    fun i hi => getD_map_range _ _ _ hi
  simp only [slope_of, _linear_regression_slope, ols_slope_spec, hlen]
  rw [if_neg (by omega)]
  set XS := (List.range smoothed.length).map ((fun i => (i : ℚ)) : ℕ → ℚ) with hXS
  set b := XS.sum / (smoothed.length : ℚ) with hb
  have hden : ((List.range smoothed.length).map (fun i => (XS.getD i 0 - b) ^ 2)).sum
      = ((List.range smoothed.length).map (fun (i : ℕ) => ((i : ℚ) - b) ^ 2)).sum :=
    sum_map_range_congr _ _ _ (fun i hi => by rw [hgd i hi])
  have hnum : ((List.range smoothed.length).map
      (fun i => (XS.getD i 0 - b) * (smoothed.getD i 0 - smoothed.sum / (smoothed.length : ℚ)))).sum
      = ((List.range smoothed.length).map
      (fun (i : ℕ) => ((i : ℚ) - b) * (smoothed.getD i 0 - smoothed.sum / (smoothed.length : ℚ)))).sum :=
    sum_map_range_congr _ _ _ (fun i hi => by rw [hgd i hi])
  rw [hden, hnum, if_neg (ols_den_ne_zero smoothed.length h2 b)]

/-- Fewer than two points short-circuit the slope to `None`. -/
lemma slope_of_short (smoothed : List ℚ) (h : smoothed.length < 2) :
    slope_of smoothed = none := by
  have hlen : ((List.range smoothed.length).map ((fun i => (i : ℚ)) : ℕ → ℚ)).length
      = smoothed.length := by simp
  simp only [slope_of, _linear_regression_slope, hlen]
  rw [if_pos h]

/-- A constant series of length at least two has slope 0. -/
lemma slope_of_replicate (c : ℚ) (k : ℕ) (hk : 2 ≤ k) :
    slope_of (List.replicate k c) = some 0 := by
  rw [slope_of_eq _ (by simpa using hk)]
  congr 1
  simp only [ols_slope_spec, List.length_replicate]
  have hybar : (List.replicate k c).sum / (k : ℚ) = c := by
    have hk0 : (k : ℚ) ≠ 0 := by
      have : (0 : ℚ) < (k : ℚ) := by exact_mod_cast (by omega : 0 < k)
      exact ne_of_gt this
    rw [List.sum_replicate, nsmul_eq_mul]
    field_simp
  have hnum : ((List.range k).map (fun (i : ℕ) =>
      ((i : ℚ) - ((List.range k).map ((fun i => (i : ℚ)) : ℕ → ℚ)).sum / (k : ℚ)) *
        ((List.replicate k c).getD i 0 - (List.replicate k c).sum / (k : ℚ)))).sum = 0 := by
    apply List.sum_eq_zero
    intro x hx
    rcases List.mem_map.mp hx with ⟨i, hi, rfl⟩
    have hgd : (List.replicate k c).getD i 0 = c := by
      rw [List.getD_eq_getElem _ _ (by simpa using List.mem_range.mp hi)]
      simp
    rw [hgd, hybar, sub_self, mul_zero]
  rw [hnum, zero_div]

/-- A single point gives no slope. -/
lemma slope_of_single (x : ℚ) : slope_of [x] = none := slope_of_short [x] (by simp)

/-- C7: the trend estimator returns `None` exactly on series of fewer
than 2 points (the x-variance over ≥ 2 distinct indices is never zero),
otherwise the ordinary least-squares slope of value against the 0-based
index; it yields 1 on [0,1,2,3,4], 0 on constant series of length ≥ 2,
and `None` on a single point. -/
theorem regression_slope_matches_spec (smoothed : List ℚ) :
    (slope_of smoothed = none ↔ smoothed.length < 2) ∧
    (2 ≤ smoothed.length → slope_of smoothed = some (ols_slope_spec smoothed)) ∧
    slope_of ([0, 1, 2, 3, 4] : List ℚ) = some 1 ∧
    (∀ (c : ℚ) (k : ℕ), 2 ≤ k → slope_of (List.replicate k c) = some 0) ∧
    (∀ x : ℚ, slope_of [x] = none) := by
  refine ⟨⟨fun hn => ?_, slope_of_short smoothed⟩, slope_of_eq smoothed, ?_,
    fun c k hk => slope_of_replicate c k hk, fun x => slope_of_single x⟩
  · by_contra h
    rw [slope_of_eq smoothed (by omega)] at hn
    exact Option.noConfusion hn
  · norm_num [slope_of, _linear_regression_slope, List.range_succ]

/-- C7, witness: the least-squares form of the slope on [0, 0, 1]. -/
theorem regression_slope_matches_spec_witness :
    2 ≤ ([0, 0, 1] : List ℚ).length ∧
    slope_of ([0, 0, 1] : List ℚ) = some (ols_slope_spec [0, 0, 1]) :=
  ⟨by norm_num, (regression_slope_matches_spec [0, 0, 1]).2.1 (by norm_num)⟩

/-- C8: the conversation aggregator returns `(None, "Unknown", 0)` on
zero analyzed messages and otherwise the unweighted mean of the
polarities of all analyzed messages (via the same extractor), its word
label, and the count; the word label follows the spec's threshold bands
and maps an absent/non-numeric score to "Unknown". -/
theorem conversation_sentiment_matches_spec (uid : Int) (rows : List MessageAnalysis) :
    (rows = [] → conversation_sentiment uid rows = (uid, none, "Unknown", 0)) ∧
    (rows ≠ [] → conversation_sentiment uid rows =
      (uid, some (aggMean rows), _polarity_to_word (some (aggMean rows)), rows.length)) ∧
    _polarity_to_word none = "Unknown" ∧
    (∀ s : ℚ,
      (s ≤ -(3/5) → _polarity_to_word (some s) = "Strongly Negative") ∧
      (-(3/5) < s → s ≤ -(1/5) → _polarity_to_word (some s) = "Negative") ∧
      (-(1/5) < s → s < 1/5 → _polarity_to_word (some s) = "Neutral") ∧
      (1/5 ≤ s → s < 3/5 → _polarity_to_word (some s) = "Positive") ∧
      (3/5 ≤ s → _polarity_to_word (some s) = "Strongly Positive")) := by
  refine ⟨fun h => by simp [h, conversation_sentiment], fun h => ?_, rfl, fun s => ?_⟩
  · rcases rows with _ | ⟨r, t⟩
    · exact absurd rfl h
    · simp [conversation_sentiment, aggMean]
  · refine ⟨fun h1 => ?_, fun h1 h2 => ?_, fun h1 h2 => ?_, fun h1 h2 => ?_, fun h1 => ?_⟩
    all_goals
      simp only [_polarity_to_word]
      split_ifs <;> first | rfl | (exfalso; linarith)

/-- C8, witness: a single label-only negative row aggregates to its own
extracted polarity. -/
theorem conversation_sentiment_matches_spec_witness :
    ([⟨EmoScores.null, some "negative"⟩] : List MessageAnalysis) ≠ [] ∧
    conversation_sentiment 7 [⟨EmoScores.null, some "negative"⟩] =
      (7, some (aggMean [⟨EmoScores.null, some "negative"⟩]),
        _polarity_to_word (some (aggMean [⟨EmoScores.null, some "negative"⟩])),
        ([⟨EmoScores.null, some "negative"⟩] : List MessageAnalysis).length) :=
  ⟨by simp,
    (conversation_sentiment_matches_spec 7 [⟨EmoScores.null, some "negative"⟩]).2.1 (by simp)⟩

/-- C9: every outcome of the optional LLM summary step (unavailable,
raising, returning a non-string, or returning a string) leaves all
numeric fields of the trend result identical, and whenever the step does
not succeed the summary field is the deterministic template built from
the trend label, the start/end means, the delta and the shift points. -/
theorem summary_isolation (uid : Int) (fetched : List MsgRow) (window : Int)
    (o₁ o₂ : LLMOutcome) (hne : fetched ≠ []) :
    (user_mood_trend uid fetched window o₁).map numericPart =
      (user_mood_trend uid fetched window o₂).map numericPart ∧
    (llm_success o₁ = none → ∀ r, user_mood_trend uid fetched window o₁ = .ok r →
      r.summary = simple_summary r.trend (r.start_mean.getD 0) (r.end_mean.getD 0)
        (r.delta.getD 0) r.shift_points) := by
  have hempty : fetched.isEmpty = false := by
    cases fetched
    · exact absurd rfl hne
    · simp
  simp only [user_mood_trend, hempty, Bool.false_eq_true, if_false]
  cases hmn : mood_numeric fetched window with
  | error e => simp
  | ok d =>
    constructor
    · simp [numericPart, Except.map]
    · intro hs r hr
      simp only [Except.ok.injEq] at hr
      subst hr
      simp [hs]

/-- C9, witness: a raising LLM step versus a succeeding one on a
one-message fetch with window 1. -/
theorem summary_isolation_witness :
    ([⟨1, none, none⟩] : List MsgRow) ≠ [] ∧
    ((user_mood_trend 1 [⟨1, none, none⟩] 1 .raisesExc).map numericPart =
      (user_mood_trend 1 [⟨1, none, none⟩] 1 (.returnsStr "Fine.")).map numericPart ∧
    (llm_success .raisesExc = none → ∀ r,
      user_mood_trend 1 [⟨1, none, none⟩] 1 .raisesExc = .ok r →
      r.summary = simple_summary r.trend (r.start_mean.getD 0) (r.end_mean.getD 0)
        (r.delta.getD 0) r.shift_points)) :=
  ⟨by simp, summary_isolation 1 [⟨1, none, none⟩] 1 .raisesExc (.returnsStr "Fine.") (by simp)⟩
